import Mathlib

/-!
Verification of the ChachChat realtime chat service against its design
specification. The repository contains several near-duplicate server
variants; the definitions below are shallow embeddings of the concrete
handlers of three of them, plus the browser client:

- `Idx`: the sqlite/cookie variant (src/index.js);
- `P2`: the better-sqlite3 bearer-token variant (src/unnamed/part_002);
- `P6`: the JSON-file variant (src/unnamed/part_006);
- `ClientJs`: the browser client (src/public/client.js);
- `Hub`: the SSE fan-out loop shared by the server variants;
- `Presence`: the presence map of src/index.js.

JavaScript strings are modelled as Lean `String` (a list of characters),
timestamps as natural numbers, and the sqlite tables as Lean lists in
insertion order, with AUTOINCREMENT modelled by an explicit next-id counter.
-/

/-! ## JavaScript string primitives used by the handlers -/

/-- Characters removed by the control-character regex of `sanitizeText`
in src/index.js: U+0000 to U+001F and U+007F. -/
def isCtrlChar (c : Char) : Bool := c.toNat < 32 || c.toNat == 127

/-- The white-space set trimmed by JavaScript `String.prototype.trim`. -/
def isJsWhitespace (c : Char) : Bool :=
  (9 ≤ c.toNat && c.toNat ≤ 13) || c.toNat == 32 || c.toNat == 160 ||
  c.toNat == 0x1680 || (0x2000 ≤ c.toNat && c.toNat ≤ 0x200A) ||
  c.toNat == 0x2028 || c.toNat == 0x2029 || c.toNat == 0x202F ||
  c.toNat == 0x205F || c.toNat == 0x3000 || c.toNat == 0xFEFF

/-- JavaScript `trim` on a character list: drop white space at both ends. -/
def jsTrimList (l : List Char) : List Char :=
  ((l.dropWhile isJsWhitespace).reverse.dropWhile isJsWhitespace).reverse

/-- JavaScript `String.prototype.trim`. -/
def jsTrim (s : String) : String := ⟨jsTrimList s.data⟩

/-- JavaScript `String.prototype.toLowerCase`, character by character
(the handlers only rely on its action on ASCII letters). -/
def jsToLower (s : String) : String := ⟨s.data.map Char.toLower⟩

/-- The `sanitizeText` helper of src/index.js: strip control characters,
trim, then truncate to the first 500 characters with `slice(0, 500)`. -/
def sanitizeText (s : String) : String :=
  ⟨(jsTrimList (s.data.filter (fun c => !isCtrlChar c))).take 500⟩

/-! ## Messages and the sqlite/cookie variant (src/index.js) -/

/-- A row of the `messages` table: integer id assigned by the database,
author, text, creation timestamp. -/
structure Message where
  id : Nat
  username : String
  text : String
  createdAt : Nat
deriving DecidableEq

/-- Ascending id order on messages, as in `ORDER BY id ASC`. -/
def byIdAsc (a b : Message) : Prop := a.id ≤ b.id

/-- Descending id order on messages, as in `ORDER BY id DESC`. -/
def byIdDesc (a b : Message) : Prop := b.id ≤ a.id

instance : DecidableRel byIdAsc := fun a b => Nat.decLe a.id b.id
instance : DecidableRel byIdDesc := fun a b => Nat.decLe b.id a.id

instance : IsTotal Message byIdAsc := ⟨fun a b => Nat.le_total a.id b.id⟩
instance : IsTrans Message byIdAsc := ⟨fun _ _ _ => Nat.le_trans⟩
instance : IsTotal Message byIdDesc := ⟨fun a b => Nat.le_total b.id a.id⟩
instance : IsTrans Message byIdDesc := ⟨fun _ _ _ h h2 => Nat.le_trans h2 h⟩

namespace Idx

/-- State of the sqlite variant: the `messages` table in rowid order plus
the next AUTOINCREMENT id (1 on an empty table). -/
structure ServerState where
  messages : List Message
  nextId : Nat
deriving DecidableEq

/-- Empty database, next id 1. -/
def initState : ServerState := ⟨[], 1⟩

/-- The limit clamp of the GET /api/messages handler:
`Math.min(200, Math.max(1, Number(req.query.limit || 50)))`, for a request
whose limit parameter is absent (`none`) or parses to a number. -/
def effLimit (limOpt : Option Int) : Int := min 200 (max 1 (limOpt.getD 50))

/-- The GET /api/messages handler of src/index.js:
`SELECT ... WHERE id > ? ORDER BY id ASC LIMIT ?` with the clamped limit. -/
def getMessages (st : ServerState) (since : Int) (limOpt : Option Int) :
    List Message :=
  (List.insertionSort byIdAsc
      (st.messages.filter (fun m => decide (since < (m.id : Int))))).take
    (effLimit limOpt).toNat

/-- The POST /api/messages handler of src/index.js: sanitize the text,
reject when the result is empty, otherwise insert a row whose id is the
AUTOINCREMENT value and return the stored message. -/
def appendMsg (st : ServerState) (user rawText : String) (now : Nat) :
    Option (ServerState × Message) :=
  let text := sanitizeText rawText
  if text = "" then none
  else
    let m : Message := ⟨st.nextId, user, text, now⟩
    some (⟨st.messages ++ [m], st.nextId + 1⟩, m)

/-- Run a sequence of POST /api/messages requests (author, raw text) in
order; a rejected post leaves the state unchanged. -/
def runPosts (st : ServerState) (posts : List (String × String)) : ServerState :=
  posts.foldl
    (fun s p =>
      match appendMsg s p.1 p.2 0 with
      | some r => r.1
      | none => s)
    st

end Idx

namespace P2

/-- The limit clamp of the GET /api/messages handler of part_002:
`Math.max(1, Math.min(200, Number(req.query.limit || 50)))`. -/
def effLimit (limOpt : Option Int) : Int := max 1 (min 200 (limOpt.getD 50))

/-- The GET /api/messages handler of src/unnamed/part_002: it runs
`SELECT ... ORDER BY id DESC LIMIT ?` and reverses the rows; the `since`
query parameter is never read. -/
def getMessages (msgs : List Message) (limOpt : Option Int) : List Message :=
  ((List.insertionSort byIdDesc msgs).take (effLimit limOpt).toNat).reverse

end P2

/-! ## Claim C1 -/

/-- Two stored messages used as a concrete database content. -/
def demoMsgs : List Message := [⟨1, "alice", "hi", 0⟩, ⟨2, "alice", "there", 0⟩]

/-- C1 counterexample: in the part_002 variant a GET /api/messages request
with since = 1 and limit = 50 against a log holding messages 1 and 2
returns message 1 as well, so the response is not restricted to ids
greater than since. -/
theorem c1_counterexample :
    ¬ (∀ m ∈ P2.getMessages demoMsgs (some 50), (1 : Int) < (m.id : Int)) := by
  decide

/-- C1 amended: in the sqlite/cookie variant, for a request whose since and
limit parameters are numeric or absent, the response contains only messages
with id greater than since, is ascending by id, has length at most 200, and
omits a qualifying message only when the response already holds the full
clamped limit; the part_002 variant ignores since and instead returns at
most the clamped limit of stored messages, ascending by id. -/
theorem c1_amended (st : Idx.ServerState) (since : Int) (limOpt : Option Int)
    (msgs : List Message) :
    (∀ m ∈ Idx.getMessages st since limOpt, since < (m.id : Int)) ∧
    List.Pairwise byIdAsc (Idx.getMessages st since limOpt) ∧
    (Idx.getMessages st since limOpt).length ≤ 200 ∧
    (∀ m ∈ st.messages, since < (m.id : Int) →
      m ∈ Idx.getMessages st since limOpt ∨
        (Idx.getMessages st since limOpt).length = (Idx.effLimit limOpt).toNat) ∧
    (∀ m ∈ P2.getMessages msgs limOpt, m ∈ msgs) ∧
    List.Pairwise byIdAsc (P2.getMessages msgs limOpt) ∧
    (P2.getMessages msgs limOpt).length ≤ 200 := by
  constructor
  · intro m hm
    have hm2 := List.take_subset _ _ hm
    have hm3 := (List.mem_insertionSort byIdAsc).1 hm2
    have := List.mem_filter.1 hm3
    exact of_decide_eq_true this.2
  refine ⟨?_, ?_, ?_, ?_, ?_, ?_⟩
  · exact List.Pairwise.sublist (List.take_sublist _ _)
      (List.sorted_insertionSort byIdAsc _)
  · have h1 : (Idx.getMessages st since limOpt).length ≤ (Idx.effLimit limOpt).toNat := by
      unfold Idx.getMessages
      rw [List.length_take]
      exact min_le_left _ _
    have h2 : (Idx.effLimit limOpt).toNat ≤ 200 := by
      rw [Int.toNat_le]
      exact le_trans (min_le_left _ _) (by norm_num)
    exact le_trans h1 h2
  · intro m hm hgt
    by_cases hmem : m ∈ Idx.getMessages st since limOpt
    · exact Or.inl hmem
    · right
      set L := List.insertionSort byIdAsc
        (st.messages.filter (fun m => decide (since < (m.id : Int)))) with hL
      have hmL : m ∈ L := by
        rw [hL, List.mem_insertionSort, List.mem_filter]
        exact ⟨hm, decide_eq_true hgt⟩
      have hlen : (Idx.effLimit limOpt).toNat < L.length := by
        by_contra hle
        push_neg at hle
        have : Idx.getMessages st since limOpt = L := by
          unfold Idx.getMessages
          rw [← hL]
          exact List.take_of_length_le hle
        exact hmem (this ▸ hmL)
      show (L.take (Idx.effLimit limOpt).toNat).length = _
      rw [List.length_take]
      exact min_eq_left (le_of_lt hlen)
  · intro m hm
    have hm2 := List.take_subset _ _ (List.mem_reverse.1 hm)
    exact (List.mem_insertionSort byIdDesc).1 hm2
  · have hs : List.Pairwise byIdDesc ((List.insertionSort byIdDesc msgs).take
        (P2.effLimit limOpt).toNat) :=
      List.Pairwise.sublist (List.take_sublist _ _)
        (List.sorted_insertionSort byIdDesc _)
    exact List.pairwise_reverse.2 hs
  · have h1 : (P2.getMessages msgs limOpt).length ≤ (P2.effLimit limOpt).toNat := by
      unfold P2.getMessages
      rw [List.length_reverse, List.length_take]
      exact min_le_left _ _
    have h2 : (P2.effLimit limOpt).toNat ≤ 200 := by
      rw [Int.toNat_le]
      rcases le_total (limOpt.getD 50) 200 with h | h
      · exact le_trans (max_le (by norm_num) (le_trans (min_le_right _ _) h))
          le_rfl
      · exact max_le (by norm_num) (min_le_left _ _)
    exact le_trans h1 h2

/-- C1 witness: the amended statement evaluated on the two-message database
with since = 0 and the default limit. -/
theorem c1_witness :
    (∀ m ∈ Idx.getMessages ⟨demoMsgs, 3⟩ 0 none, (0 : Int) < (m.id : Int)) ∧
    List.Pairwise byIdAsc (Idx.getMessages ⟨demoMsgs, 3⟩ 0 none) ∧
    (Idx.getMessages ⟨demoMsgs, 3⟩ 0 none).length ≤ 200 ∧
    (∀ m ∈ demoMsgs, (0 : Int) < (m.id : Int) →
      m ∈ Idx.getMessages ⟨demoMsgs, 3⟩ 0 none ∨
        (Idx.getMessages ⟨demoMsgs, 3⟩ 0 none).length = (Idx.effLimit none).toNat) ∧
    (∀ m ∈ P2.getMessages demoMsgs none, m ∈ demoMsgs) ∧
    List.Pairwise byIdAsc (P2.getMessages demoMsgs none) ∧
    (P2.getMessages demoMsgs none).length ≤ 200 :=
  c1_amended ⟨demoMsgs, 3⟩ 0 none demoMsgs

/-! ## The JSON-file variant (src/unnamed/part_006): storage model -/

namespace P6

/-- A message of the JSON-file variant: its id is the string produced by
crypto.randomUUID at post time. -/
structure MessageJ where
  id : String
  username : String
  text : String
  createdAt : Nat
deriving DecidableEq

/-- The retention step of persistMessages: when more than 500 messages are
stored, keep only the last 500 (`messages.slice(-500)`). -/
def trim500 (l : List MessageJ) : List MessageJ :=
  if 500 < l.length then l.drop (l.length - 500) else l

/-- Validation failures of the POST /api/messages handler. -/
inductive PostErr where
  | empty
  | tooLong
deriving DecidableEq

/-- The POST /api/messages handler of src/unnamed/part_006: trim the text,
reject empty or over-500 text, then push a message whose id is the freshly
generated UUID string and persist with the retention step. -/
def postMessage (msgs : List MessageJ) (uuid user rawText : String)
    (now : Nat) : Except PostErr (List MessageJ × MessageJ) :=
  let text := jsTrim rawText
  if text = "" then .error .empty
  else if 500 < text.data.length then .error .tooLong
  else
    let m : MessageJ := ⟨uuid, user, text, now⟩
    .ok (trim500 (msgs ++ [m]), m)

end P6

/-! ## Claim C2 -/

/-- Ids and next-id counter after a run of posts against the sqlite
variant, assuming every post passes validation. -/
theorem runPosts_ids (posts : List (String × String)) :
    ∀ st : Idx.ServerState, (∀ p ∈ posts, sanitizeText p.2 ≠ "") →
      (Idx.runPosts st posts).messages.map (fun m => m.id) =
        st.messages.map (fun m => m.id) ++ List.range' st.nextId posts.length ∧
      (Idx.runPosts st posts).nextId = st.nextId + posts.length := by
  induction posts with
  | nil => intro st _; simp [Idx.runPosts]
  | cons p ps ih =>
    intro st hv
    have hp : sanitizeText p.2 ≠ "" := hv p (List.mem_cons_self p ps)
    have hstep : Idx.runPosts st (p :: ps) =
        Idx.runPosts ⟨st.messages ++ [⟨st.nextId, p.1, sanitizeText p.2, 0⟩],
          st.nextId + 1⟩ ps := by
      simp [Idx.runPosts, Idx.appendMsg, hp]
    rw [hstep]
    obtain ⟨h1, h2⟩ := ih _ (fun q hq => hv q (List.mem_cons_of_mem _ hq))
    constructor
    · rw [h1]
      simp [List.range'_succ, List.append_assoc]
    · rw [h2]
      simp
      omega

/-- The UUID generated for the single post of the C2 counterexample. -/
def demoUuid : String := "8f14e45f-ceea-467f-a0e6-7f1f3f0f2a11"

/-- C2 counterexample: in the JSON-file variant one successful append
assigns the generated UUID string as the message id, so the assigned ids
are not the integers 1..N. -/
theorem c2_counterexample :
    (P6.postMessage [] demoUuid "alice" "hi" 0).toOption.map
        (fun r => r.1.map (fun m => m.id)) = some [demoUuid] ∧
      [demoUuid] ≠ ["1"] := by
  exact ⟨rfl, by decide⟩

/-- C2 amended: in the sqlite variants, after any sequence of N successful
appends from an empty log the assigned ids are exactly 1..N in order,
strictly increasing, with no duplicate and no reuse; the JSON-file variant
instead assigns random UUID strings. -/
theorem c2_amended (posts : List (String × String))
    (h : ∀ p ∈ posts, sanitizeText p.2 ≠ "") :
    (Idx.runPosts Idx.initState posts).messages.map (fun m => m.id) =
      List.range' 1 posts.length ∧
    List.Pairwise (· < ·)
      ((Idx.runPosts Idx.initState posts).messages.map (fun m => m.id)) := by
  obtain ⟨h1, _⟩ := runPosts_ids posts Idx.initState h
  have he : (Idx.runPosts Idx.initState posts).messages.map (fun m => m.id) =
      List.range' 1 posts.length := by
    simpa [Idx.initState] using h1
  exact ⟨he, he ▸ List.pairwise_lt_range' 1 posts.length⟩

/-- Two valid posts used to witness C2. -/
def demoPosts : List (String × String) := [("alice", "hi"), ("alice", "there")]

/-- C2 witness: the amended statement evaluated on two concrete posts. -/
theorem c2_witness :
    (∀ p ∈ demoPosts, sanitizeText p.2 ≠ "") ∧
    ((Idx.runPosts Idx.initState demoPosts).messages.map (fun m => m.id) =
        List.range' 1 demoPosts.length ∧
      List.Pairwise (· < ·)
        ((Idx.runPosts Idx.initState demoPosts).messages.map (fun m => m.id))) :=
  ⟨by decide, c2_amended demoPosts (by decide)⟩

/-! ## The part_002 variant: message posting and the token store -/

/-- JavaScript `String.prototype.includes` on character lists: the needle
occurs as a contiguous run of the haystack. -/
def jsIncludes : List Char → List Char → Bool
  | [], needle => needle.isEmpty
  | h :: t, needle => needle.isPrefixOf (h :: t) || jsIncludes t needle

namespace P2

/-- The word list of the content filter, verbatim from part_002. -/
def bannedWords : List String :=
  ["nigger", "nigga", "faggot", "kike", "wetback"]

/-- The `isBanned` helper of part_002: lower-case the text and test each
banned word for substring occurrence. -/
def isBanned (text : String) : Bool :=
  bannedWords.any (fun w => jsIncludes (jsToLower text).data w.data)

/-- Validation failures of the POST /api/messages handler of part_002. -/
inductive PostErr where
  | empty
  | tooLong
  | banned
deriving DecidableEq

/-- The POST /api/messages handler of src/unnamed/part_002: trim the text,
reject empty, over-500 or banned text, then insert a row with the next
AUTOINCREMENT id. -/
def postMessage (msgs : List Message) (user rawText : String)
    (nextId now : Nat) : Except PostErr (List Message × Message) :=
  let text := jsTrim rawText
  if text = "" then .error .empty
  else if 500 < text.data.length then .error .tooLong
  else if isBanned text then .error .banned
  else
    let m : Message := ⟨nextId, user, text, now⟩
    .ok (msgs ++ [m], m)

/-- A session record of the in-memory token store of part_002. -/
structure TokenRec where
  username : String
  expiresAt : Nat
deriving DecidableEq

/-- Authentication failures of the `auth` middleware of part_002. -/
inductive AuthErr where
  | missing
  | invalid
  | expired
deriving DecidableEq

/-- Lookup in the token map, modelled on an association list in insertion
order. -/
def lookupTok (m : List (String × TokenRec)) (t : String) : Option TokenRec :=
  (m.find? (fun p => p.1 == t)).map (fun p => p.2)

/-- Deletion from the token map (`tokens.delete(token)`). -/
def deleteTok (m : List (String × TokenRec)) (t : String) :
    List (String × TokenRec) :=
  m.filter (fun p => !(p.1 == t))

/-- The `auth` middleware of part_002 on an extracted token: missing token,
unknown token, or expiry check `Date.now() > rec.expiresAt` with eviction
of the expired record; otherwise the session username is returned. -/
def auth (m : List (String × TokenRec)) (t : String) (now : Nat) :
    Except AuthErr String × List (String × TokenRec) :=
  if t = "" then (.error .missing, m)
  else
    match lookupTok m t with
    | none => (.error .invalid, m)
    | some r =>
      if r.expiresAt < now then (.error .expired, deleteTok m t)
      else (.ok r.username, m)

end P2

/-- Deleting a token removes its record from the map. -/
theorem lookupTok_deleteTok (m : List (String × P2.TokenRec)) (t : String) :
    P2.lookupTok (P2.deleteTok m t) t = none := by
  unfold P2.lookupTok P2.deleteTok
  have h : List.find? (fun p : String × P2.TokenRec => p.1 == t)
      (m.filter (fun p => !(p.1 == t))) = none := by
    rw [List.find?_eq_none]
    intro x hx
    have := (List.mem_filter.1 hx).2
    simp only [Bool.not_eq_true'] at this
    simp [this]
  rw [h]
  rfl

/-! ## Claim C4 -/

/-- A message body of 501 identical characters. -/
def longText : String := ⟨List.replicate 501 'a'⟩

set_option maxRecDepth 4000 in
/-- C4 counterexample: in src/index.js a post whose text has 501 characters
is not rejected; the stored text is the 500-character truncation, so the
stored text differs from the submitted text. -/
theorem c4_counterexample :
    (Idx.appendMsg Idx.initState "alice" longText 0).map (fun r => r.2.text) =
      some ⟨List.replicate 500 'a'⟩ ∧
    (⟨List.replicate 500 'a'⟩ : String) ≠ longText := by
  constructor
  · rfl
  · decide

/-- C4 amended: in part_002 an empty-after-trim text and an over-500 text
are rejected, and a stored message text is the trimmed submission, non
empty and at most 500 characters; in src/index.js a stored message text is
the sanitized submission (control characters stripped, trimmed, truncated
to 500 characters), non empty and at most 500 characters, but over-long
text is truncated rather than rejected. -/
theorem c4_amended (msgs : List Message) (st : Idx.ServerState)
    (user rawText : String) (nextId now : Nat) :
    (jsTrim rawText = "" →
      P2.postMessage msgs user rawText nextId now = .error .empty) ∧
    (500 < (jsTrim rawText).data.length →
      P2.postMessage msgs user rawText nextId now = .error .tooLong) ∧
    (∀ res, P2.postMessage msgs user rawText nextId now = .ok res →
      res.2.text = jsTrim rawText ∧ res.2.text ≠ "" ∧
        res.2.text.data.length ≤ 500) ∧
    (∀ res, Idx.appendMsg st user rawText now = some res →
      res.2.text = sanitizeText rawText ∧ res.2.text ≠ "" ∧
        res.2.text.data.length ≤ 500) := by
  refine ⟨?_, ?_, ?_, ?_⟩
  · intro h
    simp [P2.postMessage, h]
  · intro h
    have hne : jsTrim rawText ≠ "" := by
      intro he
      rw [he] at h
      simp at h
    simp only [P2.postMessage]
    rw [if_neg hne, if_pos h]
  · intro res h
    simp only [P2.postMessage] at h
    split_ifs at h with h1 h2 h3
    obtain rfl : (msgs ++ [(⟨nextId, user, jsTrim rawText, now⟩ : Message)],
        (⟨nextId, user, jsTrim rawText, now⟩ : Message)) = res :=
      Except.ok.inj h
    exact ⟨rfl, h1, Nat.not_lt.1 h2⟩
  · intro res h
    simp only [Idx.appendMsg] at h
    split_ifs at h with h1
    obtain rfl : ((⟨st.messages ++ [⟨st.nextId, user, sanitizeText rawText, now⟩],
        st.nextId + 1⟩ : Idx.ServerState),
        (⟨st.nextId, user, sanitizeText rawText, now⟩ : Message)) = res :=
      Option.some.inj h
    refine ⟨rfl, h1, ?_⟩
    show ((jsTrimList _).take 500).length ≤ 500
    rw [List.length_take]
    exact min_le_left _ _

/-- C4 witness: a blank text is rejected by the part_002 handler. -/
theorem c4_witness :
    P2.postMessage [] "alice" " " 1 0 = Except.error P2.PostErr.empty :=
  (c4_amended [] Idx.initState "alice" " " 1 0).1 (by decide)

/-! ## Claim C5 -/

/-- A token store holding one session for alice that expires at time 100. -/
def demoTokens : List (String × P2.TokenRec) := [("tok", ⟨"alice", 100⟩)]

/-- C5 counterexample: at the instant now = expiresAt validation still
succeeds, although the claim requires failure at and after expiry; the
code only fails when now is strictly greater than expiresAt. -/
theorem c5_counterexample :
    (P2.auth demoTokens "tok" 100).1 = Except.ok "alice" ∧
    (P2.auth demoTokens "tok" 100).1 ≠ Except.error P2.AuthErr.expired := by
  refine ⟨rfl, ?_⟩
  intro h
  rw [show (P2.auth demoTokens "tok" 100).1 = Except.ok "alice" from rfl] at h
  exact Except.noConfusion h

/-- C5 amended: for a token with a recorded session, validation succeeds at
every time up to and including expiresAt, and at every strictly later time
it fails with the expiry error and evicts the record from the store. -/
theorem c5_amended (m : List (String × P2.TokenRec)) (t : String)
    (r : P2.TokenRec) (now : Nat) (ht : t ≠ "")
    (h : P2.lookupTok m t = some r) :
    (now ≤ r.expiresAt → P2.auth m t now = (Except.ok r.username, m)) ∧
    (r.expiresAt < now →
      (P2.auth m t now).1 = Except.error P2.AuthErr.expired ∧
      P2.lookupTok (P2.auth m t now).2 t = none) := by
  constructor
  · intro hle
    simp only [P2.auth, h]
    rw [if_neg ht, if_neg (Nat.not_lt.2 hle)]
  · intro hlt
    simp only [P2.auth, h]
    rw [if_neg ht, if_pos hlt]
    exact ⟨rfl, lookupTok_deleteTok m t⟩

/-- C5 witness: the amended statement at the concrete store, before and
after expiry. -/
theorem c5_witness :
    P2.auth demoTokens "tok" 100 = (Except.ok "alice", demoTokens) ∧
    (P2.auth demoTokens "tok" 101).1 = Except.error P2.AuthErr.expired :=
  ⟨(c5_amended demoTokens "tok" ⟨"alice", 100⟩ 100 (by decide) (by decide)).1
      (by decide),
    ((c5_amended demoTokens "tok" ⟨"alice", 100⟩ 101 (by decide)
      (by decide)).2 (by decide)).1⟩

/-! ## Claim C7 -/

/-- C7 confirmed: revoking a token removes its record; revoking an unknown
token leaves the store unchanged; revoking twice equals revoking once; and
after a revoke, validation of that token never succeeds. -/
theorem c7_confirmed (m : List (String × P2.TokenRec)) (t : String)
    (now : Nat) :
    P2.lookupTok (P2.deleteTok m t) t = none ∧
    (P2.lookupTok m t = none → P2.deleteTok m t = m) ∧
    P2.deleteTok (P2.deleteTok m t) t = P2.deleteTok m t ∧
    ∀ u, (P2.auth (P2.deleteTok m t) t now).1 ≠ Except.ok u := by
  refine ⟨lookupTok_deleteTok m t, ?_, ?_, ?_⟩
  · intro h
    have hf : List.find? (fun p : String × P2.TokenRec => p.1 == t) m = none := by
      have := h
      unfold P2.lookupTok at this
      exact Option.map_eq_none'.1 this
    unfold P2.deleteTok
    rw [List.filter_eq_self]
    intro p hp
    have := List.find?_eq_none.1 hf p hp
    simpa using this
  · unfold P2.deleteTok
    rw [List.filter_eq_self]
    intro p hp
    exact (List.mem_filter.1 hp).2
  · intro u h
    by_cases ht : t = ""
    · rw [show P2.auth (P2.deleteTok m t) t now =
          (Except.error P2.AuthErr.missing, P2.deleteTok m t) from by
        simp [P2.auth, ht]] at h
      exact Except.noConfusion h
    · rw [show P2.auth (P2.deleteTok m t) t now =
          (Except.error P2.AuthErr.invalid, P2.deleteTok m t) from by
        simp [P2.auth, ht, lookupTok_deleteTok]] at h
      exact Except.noConfusion h

/-- C7 witness: the revoke properties at a concrete store, including the
unknown-token case. -/
theorem c7_witness :
    P2.lookupTok (P2.deleteTok demoTokens "tok") "tok" = none ∧
    P2.deleteTok demoTokens "zzz" = demoTokens ∧
    P2.deleteTok (P2.deleteTok demoTokens "tok") "tok" =
      P2.deleteTok demoTokens "tok" :=
  ⟨(c7_confirmed demoTokens "tok" 0).1,
    (c7_confirmed demoTokens "zzz" 0).2.1 (by decide),
    (c7_confirmed demoTokens "tok" 0).2.2.1⟩

/-! ## The browser client (src/public/client.js) -/

namespace ClientJs

/-- Client UI state: the poll cursor lastId and the rendered DOM nodes in
order of insertion. -/
structure UIState where
  lastId : Nat
  rendered : List Message
deriving DecidableEq

/-- The addMessage function of src/public/client.js: a message with a
falsy id is dropped; otherwise the cursor advances to the maximum of the
old cursor and the id, and a node is appended; no comparison against
already-rendered ids is made. -/
def addMessage (st : UIState) (m : Message) : UIState :=
  if m.id = 0 then st
  else ⟨max st.lastId m.id, st.rendered ++ [m]⟩

/-- Deliver a poll response to the UI: addMessage on each returned
message in order. -/
def applyPoll (st : UIState) (msgs : List Message) : UIState :=
  msgs.foldl addMessage st

end ClientJs

/-! ## Claim C3 -/

/-- C3: a poll request issued at cursor 0 is answered with message 1 while
the push stream delivers message 1 first; the client renders the message
twice, because addMessage never deduplicates by id. -/
theorem c3_code_bug :
    ((ClientJs.applyPoll
        (ClientJs.addMessage ⟨0, []⟩ ⟨1, "alice", "hi", 0⟩)
        (Idx.getMessages ⟨[⟨1, "alice", "hi", 0⟩], 2⟩ 0
          (some 200))).rendered.count ⟨1, "alice", "hi", 0⟩) = 2 := by
  decide

/-! ## The SSE fan-out loop -/

namespace Hub

/-- A live SSE subscriber: the response object with its pending outbound
buffer; closed models a response whose write throws. -/
structure Sub where
  closed : Bool
  pending : List Message
deriving DecidableEq

/-- One res.write(payload) inside the try/catch of sseBroadcast: an open
response buffers the payload without bound; a throwing response is
silently skipped. -/
def writeTo (s : Sub) (m : Message) : Sub :=
  if s.closed then s else ⟨s.closed, s.pending ++ [m]⟩

/-- The sseBroadcast loop of src/index.js (and the broadcast loops of
part_002 and part_006): write to every registered client, swallowing
errors; no subscriber is ever removed, marked stale, or closed by the
loop. -/
def sseBroadcast (subs : List Sub) (m : Message) : List Sub :=
  subs.map (fun s => writeTo s m)

/-- Repeated publication of a sequence of messages. -/
def broadcastAll (subs : List Sub) (ms : List Message) : List Sub :=
  ms.foldl sseBroadcast subs

end Hub

/-! ## Claim C6 -/

/-- C6: the fan-out loop keeps every subscriber and appends every published
message to the outbound buffer of an open subscriber, so a subscriber that
never drains accumulates the whole published sequence: nothing bounds the
buffer, and no message is dropped with a stale mark, nor is the channel
closed. -/
theorem c6_code_bug (subs : List Hub.Sub) (m : Message) (q : List Message)
    (ms : List Message) :
    (Hub.sseBroadcast subs m).length = subs.length ∧
    Hub.broadcastAll [⟨false, q⟩] ms = [⟨false, q ++ ms⟩] := by
  constructor
  · simp [Hub.sseBroadcast]
  · induction ms generalizing q with
    | nil => simp [Hub.broadcastAll]
    | cons x xs ih =>
      have hstep : Hub.broadcastAll [(⟨false, q⟩ : Hub.Sub)] (x :: xs) =
          Hub.broadcastAll [(⟨false, q ++ [x]⟩ : Hub.Sub)] xs := by
        simp [Hub.broadcastAll, Hub.sseBroadcast, Hub.writeTo]
      rw [hstep, ih]
      simp

/-! ## The JSON-file variant: token extraction and authentication -/

namespace P6

/-- The three request fields inspected by getTokenFromReq: the
Authorization header, the token query parameter, the token body field. -/
structure Req where
  authHeader : Option String
  queryToken : Option String
  bodyToken : Option String
deriving DecidableEq

/-- The getTokenFromReq helper of src/unnamed/part_006: when the header
starts with a case-insensitive Bearer marker, the remainder is trimmed and
returned; otherwise the query parameter and then the body field are
returned untrimmed. -/
def getTokenFromReq (r : Req) : Option String :=
  let auth := r.authHeader.getD ""
  if ("bearer ".data).isPrefixOf (jsToLower auth).data then
    some (jsTrim ⟨auth.data.drop 7⟩)
  else
    match r.queryToken with
    | some q => some q
    | none => r.bodyToken

/-- A session of part_006: username and creation time, with no expiry. -/
structure SessJ where
  username : String
  createdAt : Nat
deriving DecidableEq

/-- The requireAuth middleware of part_006: extract a token, reject when
missing or unknown, otherwise answer with the session username. -/
def requireAuth (sessions : List (String × SessJ)) (r : Req) :
    Except String String :=
  match getTokenFromReq r with
  | none => .error "Not signed in."
  | some t =>
    if t = "" then .error "Not signed in."
    else
      match (sessions.find? (fun p => p.1 == t)).map (fun p => p.2) with
      | none => .error "Session expired. Please sign in again."
      | some s => .ok s.username

end P6

/-- A character list precedes itself followed by anything. -/
theorem isPrefixOf_self_append (l m : List Char) :
    l.isPrefixOf (l ++ m) = true := by
  induction l with
  | nil => simp [List.isPrefixOf]
  | cons a as ih => simp [List.isPrefixOf, ih]

/-- Token extraction from a well-formed Bearer header yields the trimmed
token. -/
theorem getToken_bearer (t : String) :
    P6.getTokenFromReq ⟨some ("Bearer " ++ t), none, none⟩ =
      some (jsTrim t) := by
  have hdata : ("Bearer " ++ t).data = "Bearer ".data ++ t.data := rfl
  have hlow : (jsToLower ("Bearer " ++ t)).data =
      "bearer ".data ++ t.data.map Char.toLower := by
    show List.map Char.toLower ("Bearer " ++ t).data = _
    rw [hdata, List.map_append]
    rfl
  have hpre : ("bearer ".data).isPrefixOf
      (jsToLower ("Bearer " ++ t)).data = true := by
    rw [hlow]
    exact isPrefixOf_self_append _ _
  have hdrop : ("Bearer " ++ t).data.drop 7 = t.data := by
    rw [hdata]
    have h7 : ("Bearer ".data).length = 7 := rfl
    rw [← h7, List.drop_left]
  simp only [P6.getTokenFromReq, Option.getD_some]
  rw [if_pos hpre, hdrop]

/-! ## Claim C8 -/

/-- A part_006 session store holding the token abc for alice. -/
def demoSessJ : List (String × P6.SessJ) := [("abc", ⟨"alice", 0⟩)]

/-- C8 counterexample: carrying the token with a leading space through the
header authenticates (the header path trims it), while carrying the very
same value through the query parameter fails, so the three channels are
not equivalent. -/
theorem c8_counterexample :
    P6.requireAuth demoSessJ ⟨some "Bearer  abc", none, none⟩ =
      Except.ok "alice" ∧
    P6.requireAuth demoSessJ ⟨none, some " abc", none⟩ =
      Except.error "Session expired. Please sign in again." := by
  constructor
  · rfl
  · rfl

/-- C8 amended: for a token value with no surrounding white space, the
authentication outcome of the JSON-file variant is identical whichever of
the three channels carries it. -/
theorem c8_amended (sessions : List (String × P6.SessJ)) (t : String)
    (h : jsTrim t = t) :
    P6.requireAuth sessions ⟨some ("Bearer " ++ t), none, none⟩ =
      P6.requireAuth sessions ⟨none, some t, none⟩ ∧
    P6.requireAuth sessions ⟨none, some t, none⟩ =
      P6.requireAuth sessions ⟨none, none, some t⟩ := by
  have hh : P6.getTokenFromReq ⟨some ("Bearer " ++ t), none, none⟩ = some t := by
    rw [getToken_bearer, h]
  have hq : P6.getTokenFromReq ⟨none, some t, none⟩ = some t := rfl
  have hb : P6.getTokenFromReq ⟨none, none, some t⟩ = some t := rfl
  constructor
  · simp only [P6.requireAuth, hh, hq]
  · simp only [P6.requireAuth, hq, hb]

/-- C8 witness: the channel equivalence at the concrete store and the
token abc. -/
theorem c8_witness :
    P6.requireAuth demoSessJ ⟨some ("Bearer " ++ "abc"), none, none⟩ =
      P6.requireAuth demoSessJ ⟨none, some "abc", none⟩ ∧
    P6.requireAuth demoSessJ ⟨none, some "abc", none⟩ =
      P6.requireAuth demoSessJ ⟨none, none, some "abc"⟩ :=
  c8_amended demoSessJ "abc" (by decide)

/-! ## Claim C9 -/

namespace P6

/-- The storage effect of one successful post: `messages.push(msg)`
followed by persistMessages with its retention step. -/
def pushAndPersist (msgs : List MessageJ) (m : MessageJ) : List MessageJ :=
  trim500 (msgs ++ [m])

/-- Storage effect of a sequence of successful posts. -/
def runStores (init : List MessageJ) (ms : List MessageJ) : List MessageJ :=
  ms.foldl pushAndPersist init

end P6

/-- The retention step keeps a suffix of its input. -/
theorem trim500_suffix (l : List P6.MessageJ) : P6.trim500 l <:+ l := by
  unfold P6.trim500
  split
  · exact List.drop_suffix _ _
  · exact List.suffix_rfl

/-- One push-and-persist step never leaves more than 500 messages. -/
theorem pushAndPersist_length (msgs : List P6.MessageJ) (m : P6.MessageJ) :
    (P6.pushAndPersist msgs m).length ≤ 500 := by
  unfold P6.pushAndPersist P6.trim500
  split
  · rw [List.length_drop]
    omega
  · rename_i hle
    push_neg at hle
    exact hle

/-- A store of at most 500 messages stays at most 500 under any run. -/
theorem runStores_length (ms : List P6.MessageJ) :
    ∀ init : List P6.MessageJ, init.length ≤ 500 →
      (P6.runStores init ms).length ≤ 500 := by
  induction ms with
  | nil => intro init h; exact h
  | cons x xs ih =>
    intro init _
    exact ih (P6.pushAndPersist init x) (pushAndPersist_length init x)

/-- The stored list is always a suffix of the full append sequence. -/
theorem runStores_suffix (ms : List P6.MessageJ) :
    ∀ init : List P6.MessageJ, P6.runStores init ms <:+ init ++ ms := by
  induction ms with
  | nil =>
    intro init
    show init <:+ init ++ []
    rw [List.append_nil]
  | cons x xs ih =>
    intro init
    have h1 : P6.runStores init (x :: xs) =
        P6.runStores (P6.pushAndPersist init x) xs := rfl
    have h2 := ih (P6.pushAndPersist init x)
    have h3 : P6.pushAndPersist init x ++ xs <:+ (init ++ [x]) ++ xs := by
      obtain ⟨pre, hp⟩ := trim500_suffix (init ++ [x])
      refine ⟨pre, ?_⟩
      show pre ++ (P6.pushAndPersist init x ++ xs) = (init ++ [x]) ++ xs
      rw [← List.append_assoc]
      unfold P6.pushAndPersist
      rw [hp]
    rw [h1]
    have h4 := h2.trans h3
    rwa [List.append_assoc, List.singleton_append] at h4

/-- C9 confirmed: a successful post of the JSON-file variant stores
push-and-persist of the previous list, after any non-empty run of
successful posts the stored list has at most 500 entries, and the stored
list is always a suffix of the full append sequence, so only the oldest
entries are ever discarded and the relative order of survivors is kept. -/
theorem c9_confirmed (init msgs : List P6.MessageJ) (m : P6.MessageJ)
    (ms : List P6.MessageJ) (uuid user raw : String) (now : Nat) :
    (∀ res, P6.postMessage msgs uuid user raw now = .ok res →
      res.1 = P6.pushAndPersist msgs res.2) ∧
    (P6.runStores init (m :: ms)).length ≤ 500 ∧
    P6.runStores init (m :: ms) <:+ init ++ (m :: ms) := by
  refine ⟨?_, ?_, runStores_suffix (m :: ms) init⟩
  · intro res h
    simp only [P6.postMessage] at h
    split_ifs at h with h1 h2
    obtain rfl : ((P6.trim500 (msgs ++ [⟨uuid, user, jsTrim raw, now⟩]),
        (⟨uuid, user, jsTrim raw, now⟩ : P6.MessageJ)) : _ × _) = res :=
      Except.ok.inj h
    rfl
  · show (P6.runStores (P6.pushAndPersist init m) ms).length ≤ 500
    exact runStores_length ms _ (pushAndPersist_length init m)

/-- The message stored by the single post of the C9 witness. -/
def demoStored : P6.MessageJ := ⟨demoUuid, "alice", "hi", 0⟩

/-- C9 witness: the confirmed statement evaluated at one concrete post. -/
theorem c9_witness :
    ([demoStored] : List P6.MessageJ) = P6.pushAndPersist [] demoStored ∧
    (P6.runStores [] [demoStored]).length ≤ 500 ∧
    P6.runStores [] [demoStored] <:+ [] ++ [demoStored] :=
  ⟨(c9_confirmed [] [] demoStored [] demoUuid "alice" "hi" 0).1
      ([demoStored], demoStored) rfl,
    (c9_confirmed [] [] demoStored [] demoUuid "alice" "hi" 0).2.1,
    (c9_confirmed [] [] demoStored [] demoUuid "alice" "hi" 0).2.2⟩

/-! ## The presence map of src/index.js -/

namespace Presence

/-- The presenceCounts map, modelled as an association list in insertion
order: username to live-connection count. -/
def lookupCount (m : List (String × Nat)) (u : String) : Nat :=
  ((m.find? (fun p => p.1 == u)).map (fun p => p.2)).getD 0

/-- Map.set: replace the value in place when the key is present, append
otherwise. -/
def setCount (m : List (String × Nat)) (u : String) (n : Nat) :
    List (String × Nat) :=
  if m.any (fun p => p.1 == u) then
    m.map (fun p => if p.1 == u then (u, n) else p)
  else m ++ [(u, n)]

/-- Map.delete on the presence map. -/
def deleteKey (m : List (String × Nat)) (u : String) : List (String × Nat) :=
  m.filter (fun p => !(p.1 == u))

/-- The bumpPresence function of src/index.js: read the previous count
(0 when absent), add the delta, delete the entry when the result is not
positive, store it otherwise. -/
def bumpPresence (m : List (String × Nat)) (u : String) (delta : Int) :
    List (String × Nat) :=
  let next : Int := (lookupCount m u : Int) + delta
  if next ≤ 0 then deleteKey m u else setCount m u next.toNat

/-- The onlineList function of src/index.js: the keys of the presence map
sorted by the comparator handed to Array.sort; the comparator argument
models `(a, b) => a.localeCompare(b)`. -/
def onlineList (r : String → String → Prop) [DecidableRel r]
    (m : List (String × Nat)) : List String :=
  List.insertionSort r (m.map (fun p => p.1))

/-- Well-formedness of the presence map: every stored count is at least 1
and keys are distinct, as for a JavaScript Map. -/
def WF (m : List (String × Nat)) : Prop :=
  (∀ p ∈ m, 1 ≤ p.2) ∧ (m.map (fun p => p.1)).Nodup

end Presence

/-- Deleting a key preserves well-formedness. -/
theorem WF_deleteKey (m : List (String × Nat)) (u : String)
    (h : Presence.WF m) : Presence.WF (Presence.deleteKey m u) := by
  constructor
  · intro p hp
    exact h.1 p (List.mem_filter.1 hp).1
  · exact List.Nodup.sublist
      (List.Sublist.map _ (List.filter_sublist m)) h.2

/-- Storing a positive count preserves well-formedness. -/
theorem WF_setCount (m : List (String × Nat)) (u : String) (n : Nat)
    (hn : 1 ≤ n) (h : Presence.WF m) : Presence.WF (Presence.setCount m u n) := by
  unfold Presence.setCount
  split
  · rename_i hany
    constructor
    · intro p hp
      obtain ⟨q, hq, rfl⟩ := List.mem_map.1 hp
      by_cases hqu : (q.1 == u) = true
      · simp only [hqu, if_pos]
        exact hn
      · rw [if_neg hqu]
        exact h.1 q hq
    · have hkeys : (m.map (fun p => if p.1 == u then (u, n) else p)).map
          (fun p => p.1) = m.map (fun p => p.1) := by
        rw [List.map_map]
        apply List.map_congr_left
        intro p _
        by_cases hpu : (p.1 == u) = true
        · simp only [Function.comp_apply, hpu, if_pos]
          exact (eq_of_beq hpu).symm
        · rw [Function.comp_apply, if_neg hpu]
      rw [hkeys]
      exact h.2
  · rename_i hany
    constructor
    · intro p hp
      rcases List.mem_append.1 hp with hin | hnew
      · exact h.1 p hin
      · obtain rfl : p = (u, n) := List.mem_singleton.1 hnew
        exact hn
    · rw [List.map_append, List.nodup_append]
      refine ⟨h.2, List.nodup_singleton _, ?_⟩
      intro a ha hb
      have hau : a = u := by simpa using hb
      subst hau
      have hex : ∃ p ∈ m, (p.1 == a) = true := by
        obtain ⟨q, hq, hqu⟩ := List.mem_map.1 ha
        exact ⟨q, hq, by simp [hqu]⟩
      rw [← List.any_eq_true] at hex
      exact hany hex

/-! ## Claim C10 -/

/-- C10 confirmed: bumpPresence preserves the invariant that every stored
count is at least 1 with distinct keys, and onlineList produces the
usernames of positive count, without duplicates, sorted ascending with
respect to the total comparator used by the code. -/
theorem c10_confirmed (r : String → String → Prop) [DecidableRel r]
    [IsTotal String r] [IsTrans String r] (m : List (String × Nat))
    (u : String) (delta : Int) (h : Presence.WF m) :
    Presence.WF (Presence.bumpPresence m u delta) ∧
    (Presence.onlineList r m).Nodup ∧
    List.Pairwise r (Presence.onlineList r m) ∧
    ∀ v, v ∈ Presence.onlineList r m ↔ 0 < Presence.lookupCount m v := by
  refine ⟨?_, ?_, ?_, ?_⟩
  · simp only [Presence.bumpPresence]
    split
    · exact WF_deleteKey m u h
    · rename_i hpos
      push_neg at hpos
      apply WF_setCount m u _ _ h
      omega
  · exact (List.perm_insertionSort r _).nodup_iff.2 h.2
  · exact List.sorted_insertionSort r _
  · intro v
    rw [Presence.onlineList, List.mem_insertionSort]
    constructor
    · intro hv
      obtain ⟨q, hq, rfl⟩ := List.mem_map.1 hv
      have hsome : (m.find? (fun p => p.1 == q.1)).isSome = true :=
        List.find?_isSome.2 ⟨q, hq, by simp⟩
      obtain ⟨w, hw⟩ := Option.isSome_iff_exists.1 hsome
      have hw1 : 1 ≤ w.2 := h.1 w (List.mem_of_find?_eq_some hw)
      unfold Presence.lookupCount
      rw [hw]
      exact hw1
    · intro hv
      unfold Presence.lookupCount at hv
      cases hf : m.find? (fun p => p.1 == v) with
      | none =>
        rw [hf] at hv
        simp at hv
      | some q =>
        have hqv := List.find?_some hf
        refine List.mem_map.2 ⟨q, List.mem_of_find?_eq_some hf, ?_⟩
        exact eq_of_beq hqv

/-- The presence map used to witness C10. -/
def demoPresence : List (String × Nat) := [("bob", 1), ("alice", 2)]

/-- C10 witness: the confirmed statement at a concrete map with the
standard lexicographic order as comparator. -/
theorem c10_witness :
    Presence.WF demoPresence ∧
    (Presence.WF (Presence.bumpPresence demoPresence "alice" 1) ∧
      (Presence.onlineList (· ≤ ·) demoPresence).Nodup ∧
      List.Pairwise (· ≤ ·) (Presence.onlineList (· ≤ ·) demoPresence) ∧
      ∀ v, v ∈ Presence.onlineList (· ≤ ·) demoPresence ↔
        0 < Presence.lookupCount demoPresence v) :=
  ⟨⟨by decide, by decide⟩,
    c10_confirmed (· ≤ ·) demoPresence "alice" 1 ⟨by decide, by decide⟩⟩
